import Mathlib

/-!
Verification development for the Twicketer ticket-monitoring bot.

Shallow embedding of the core monitoring / deduplication logic of
`src/twicket_bot` (the `TwicketBot` orchestrator in `core/bot.py`, the
availability normalisation in `services/api_client.py`, and the sorting
helper in `utils/helpers.py`).

Modelling conventions:
* Python `str` becomes `String`; seat counts and the configured seat
  bounds are Python `int`s and become `Int` (the code always converts
  `listing.seats` with `int(...)` before comparing); prices are modelled
  as `ℚ` (exact arithmetic in place of Python floats).
* Python dicts keyed by strings (`found_tickets`) become insertion-ordered
  association lists `List (String × TicketInfo)`; the `opened_tickets`
  set becomes a `List String` used up to membership.
* The fallible external calls made while processing one listing
  (the availability fetch, `webbrowser.open`, the Discord notification)
  are modelled by an environment record `ProcEnv` giving the outcome of
  each call; a raised Python exception is an explicit outcome.
* Timestamps and log/status strings are display-only and are not modelled
  (the status enumeration `Status` stands for the status strings written
  into `found_tickets` entries).
-/

namespace Twicketer

/-- The status strings stored in `found_tickets[…]['status']` by
`TwicketBot` (`core/bot.py`). -/
inductive Status where
  | checking            -- "Checking..."
  | skipped             -- "Skipped"
  | noLongerAvailable   -- "No Longer Available"
  | alreadyOpened       -- "Already Opened"
  | noBlockInfo         -- "No Block Info"
  | openedInBrowser     -- "Opened in Browser"
  | failedToOpen        -- "Failed to Open"
deriving DecidableEq, Repr

/-- The first rejection reason reported by `_should_skip_listing`
(via `_add_status_message`), in source order. -/
inductive SkipReason where
  | tooFewSeats
  | tooManySeats
  | priceTooHigh
  | unavailable
  | meetupDelivery
deriving DecidableEq, Repr

/-- `TicketListing` dataclass (`models/ticket.py`).  The Python field
`section` is a Lean keyword, so it is called `sec` here; `seats` is kept
as the integer value of the Python string (the code reads it with
`int(listing.seats)` and interpolates it into keys and URLs). -/
structure TicketListing where
  id : String
  seats : Int
  type : String
  area : String
  sec : String
  row : String
  price : ℚ
deriving DecidableEq, Repr

/-- `DeliveryPlan` dataclass (`models/ticket.py`). -/
structure DeliveryPlan where
  deliveryMethod : Int
  title : String
deriving DecidableEq, Repr

/-- `TicketBlock` dataclass (`models/ticket.py`). -/
structure TicketBlock where
  blockId : String
deriving DecidableEq, Repr

/-- `TicketAvailability` dataclass (`models/ticket.py`): `block` is
`Optional[TicketBlock]`. -/
structure TicketAvailability where
  available : Bool
  block : Option TicketBlock
  deliveryPlan : List DeliveryPlan
deriving DecidableEq, Repr

/-- One entry of the raw JSON `deliveryPlan` array consumed by
`get_ticket_availability`; each field may be absent
(the code reads them with `plan.get('deliveryMethod', 0)` and
`plan.get('title', '')`). -/
structure RawDeliveryPlan where
  deliveryMethod : Option Int
  title : Option String
deriving DecidableEq, Repr

/-- The raw JSON `block` object: `blockId` may be absent, in which case
the subscript `result['block']['blockId']` raises `KeyError`. -/
structure RawBlock where
  blockId : Option String
deriving DecidableEq, Repr

/-- The raw JSON body returned by the inventory endpoint, as consumed by
`TwicketAPIClient.get_ticket_availability` (`services/api_client.py`).
`available` may be absent (`result.get('available', False)`); `block`
is `none` when the key is absent or its value is falsy; `deliveryPlan`
may be absent (`result.get('deliveryPlan', [])`). -/
structure RawAvailResponse where
  available : Option Bool
  block : Option RawBlock
  deliveryPlan : Option (List RawDeliveryPlan)
deriving DecidableEq, Repr

/-- `TwicketAPIClient.get_ticket_availability`
(`services/api_client.py`, lines 84–127), given the parsed JSON
response (`none` models a falsy `result`).  `Except.error` models a
Python exception escaping the function (the `KeyError` when the raw
block object lacks `blockId`). -/
def get_ticket_availability (result : Option RawAvailResponse) :
    Except String (Option TicketAvailability) :=
  match result with
  | none => .ok none
  | some r =>
    let available := r.available.getD false
    match r.block with
    | some rawBlock =>
      if available then
        let deliveryPlan := (r.deliveryPlan.getD []).map fun plan =>
          DeliveryPlan.mk (plan.deliveryMethod.getD 0) (plan.title.getD "")
        match rawBlock.blockId with
        | none => .error "KeyError: blockId"
        | some bid =>
          .ok (some (TicketAvailability.mk true (some (TicketBlock.mk bid)) deliveryPlan))
      else
        .ok (some (TicketAvailability.mk false none []))
    | none =>
      .ok (some (TicketAvailability.mk false none []))

/-- The configuration fields of `TwicketConfig` (`core/config.py`) that
the monitoring core reads.  Credentials, browser settings and webhook
URL are consumed only by the excluded collaborators and are omitted. -/
structure TwicketConfig where
  event_id : String
  time_delay : ℚ := 2
  min_seats : Int := 1
  max_seats : Int := 4
  max_price : Option ℚ := none
  skip_meetup_delivery : Bool := true
deriving DecidableEq, Repr

/-- One value of the `found_tickets` dict (`core/bot.py`, lines
260–274): display fields plus the current status.  The `timestamp`
field is real wall-clock time and is not modelled. -/
structure TicketInfo where
  id : String
  sec : String
  row : String
  seats : Int
  price : ℚ
  status : Status
deriving DecidableEq, Repr

/-- `self.found_tickets`: a Python dict keyed by strings, modelled as an
insertion-ordered association list. -/
abbrev FoundTickets := List (String × TicketInfo)

/-- Dict lookup `found_tickets[key]` / `key in found_tickets`. -/
def lookupTicket : FoundTickets → String → Option TicketInfo
  | [], _ => none
  | (k, v) :: rest, key => if k = key then some v else lookupTicket rest key

/-- In-place update of the entry under `key`, when present (Python
`found_tickets[key][field] = …` on an existing key). -/
def updateTicket (ft : FoundTickets) (key : String) (f : TicketInfo → TicketInfo) :
    FoundTickets :=
  match ft with
  | [] => []
  | (k, v) :: rest =>
    if k = key then (k, f v) :: rest else (k, v) :: updateTicket rest key f

/-- `found_tickets[key]['status'] = s`, guarded by key presence.  In
`_process_listing` the 4-part key is always present when this runs; in
`_should_skip_listing` the write is explicitly guarded by
`if ticket_key in self.found_tickets`. -/
def setTicketStatus (ft : FoundTickets) (key : String) (s : Status) : FoundTickets :=
  updateTicket ft key fun info => { info with status := s }

/-- The 4-part dedup/ledger key built in `_process_listing` (line 257):
`f"{listing.section}-{listing.row}-{listing.seats}-{listing.id}"`. -/
def ticketKey (l : TicketListing) : String :=
  l.sec ++ "-" ++ l.row ++ "-" ++ toString l.seats ++ "-" ++ l.id

/-- The 3-part key built in `_should_skip_listing` (line 235):
`f"{listing.section}-{listing.row}-{listing.seats}"` — note the missing
listing id. -/
def shortTicketKey (l : TicketListing) : String :=
  l.sec ++ "-" ++ l.row ++ "-" ++ toString l.seats

/-- Python truthiness test `not ticket_availability or not
ticket_availability.available` (`core/bot.py`, line 232). -/
def availabilityFalsy (av : Option TicketAvailability) : Bool :=
  match av with
  | none => true
  | some a => !a.available

/-- `self.config.max_price is not None and float(listing.price) >
self.config.max_price` (`core/bot.py`, line 227). -/
def priceExceedsMax (cfg : TwicketConfig) (l : TicketListing) : Bool :=
  match cfg.max_price with
  | none => false
  | some m => m < l.price

/-- The meetup scan of `_should_skip_listing` (lines 241–245): some
delivery plan entry has `delivery_method == 1`.  (The Python guard
`and ticket_availability.delivery_plan` only tests non-emptiness and is
subsumed by the existential scan.) -/
def hasMeetupDelivery (av : Option TicketAvailability) : Bool :=
  match av with
  | none => false
  | some a => a.deliveryPlan.any fun plan => plan.deliveryMethod = 1

/-- `TwicketBot._should_skip_listing` (`core/bot.py`, lines 214–247).
Returns the skip decision, the possibly-updated `found_tickets`
(the unavailable branch writes `No Longer Available` under the 3-part
key when that key is present), and the rejection reason reported by the
first matching status message. -/
def should_skip_listing (cfg : TwicketConfig) (ft : FoundTickets)
    (l : TicketListing) (av : Option TicketAvailability) :
    Bool × FoundTickets × Option SkipReason :=
  if l.seats < cfg.min_seats then
    (true, ft, some .tooFewSeats)
  else if cfg.max_seats ≤ l.seats then
    (true, ft, some .tooManySeats)
  else if priceExceedsMax cfg l then
    (true, ft, some .priceTooHigh)
  else if availabilityFalsy av then
    (true, setTicketStatus ft (shortTicketKey l) .noLongerAvailable, some .unavailable)
  else if cfg.skip_meetup_delivery && hasMeetupDelivery av then
    (true, ft, some .meetupDelivery)
  else
    (false, ft, none)

/-- Modelled from the spec (§4.1): the rejection conditions listed in
the spec's precedence order, each paired with its reason. -/
def specRejectionConditions (cfg : TwicketConfig) (l : TicketListing)
    (av : Option TicketAvailability) : List (SkipReason × Bool) :=
  [ (.tooFewSeats, decide (l.seats < cfg.min_seats)),
    (.tooManySeats, decide (cfg.max_seats ≤ l.seats)),
    (.priceTooHigh, priceExceedsMax cfg l),
    (.unavailable, availabilityFalsy av),
    (.meetupDelivery, cfg.skip_meetup_delivery && hasMeetupDelivery av) ]

/-- Modelled from the spec (§4.1): "first match wins, short-circuiting
further checks". -/
def specFirstRejection (cfg : TwicketConfig) (l : TicketListing)
    (av : Option TicketAvailability) : Option SkipReason :=
  ((specRejectionConditions cfg l av).find? fun c => c.2).map fun c => c.1

/-- C9. For every raw availability response, `get_ticket_availability`
never returns a result with `available = true` and `block = none`; and a
raw response whose `available` flag is `true` but whose `block` field is
absent is returned as `available = false`, `block = none`, empty delivery
plan — exactly the value produced for a genuinely unavailable ticket. -/
theorem getTicketAvailability_no_available_without_block
    (raw : Option RawAvailResponse) (out : TicketAvailability)
    (h : get_ticket_availability raw = .ok (some out)) :
    (out.available = true → out.block.isSome) ∧
    (∀ r : RawAvailResponse, raw = some r → r.available = some true →
      r.block = none →
      out = TicketAvailability.mk false none []) := by
  constructor
  · intro hav
    match raw with
    | none => simp [get_ticket_availability] at h
    | some r =>
      simp only [get_ticket_availability] at h
      match hb : r.block with
      | some rawBlock =>
        simp only [hb] at h
        by_cases havail : r.available.getD false
        · simp only [havail, if_pos] at h
          match hbi : rawBlock.blockId with
          | none => simp [hbi] at h
          | some bid =>
            simp only [hbi] at h
            cases h
            simp
        · simp only [havail] at h
          simp at h
          cases h
          simp at hav
      | none =>
        simp only [hb] at h
        cases h
        simp at hav
  · intro r hraw hav hb
    subst hraw
    simp only [get_ticket_availability, hb] at h
    cases h
    rfl

/-- Witness for C9 at a concrete input: a raw response with
`available = true` and no `block` is normalised to the unavailable
value. -/
theorem getTicketAvailability_no_available_without_block_witness :
    get_ticket_availability
        (some (RawAvailResponse.mk (some true) none none)) =
      .ok (some (TicketAvailability.mk false none [])) ∧
    (TicketAvailability.mk false none []) = TicketAvailability.mk false none [] := by
  refine ⟨by rfl, ?_⟩
  exact (getTicketAvailability_no_available_without_block
      (some (RawAvailResponse.mk (some true) none none))
      (TicketAvailability.mk false none []) (by rfl)).2
      (RawAvailResponse.mk (some true) none none) rfl rfl rfl

/-- C5. The acceptance filter evaluates its rejection reasons in the
fixed precedence order — seats below minimum, seats at or above maximum,
price above configured maximum, unavailability, meetup-only delivery —
with the first matching reason short-circuiting the rest (the reported
reason always equals the first matching condition of the spec's ordered
list); in particular, a candidate with seats below the minimum and price
above the configured maximum is rejected for seats, not price. -/
theorem shouldSkip_first_matching_reason (cfg : TwicketConfig)
    (ft : FoundTickets) (l : TicketListing) (av : Option TicketAvailability) :
    (should_skip_listing cfg ft l av).2.2 = specFirstRejection cfg l av ∧
    (l.seats < cfg.min_seats → priceExceedsMax cfg l = true →
      (should_skip_listing cfg ft l av).2.2 = some .tooFewSeats) := by
  constructor
  · by_cases h1 : l.seats < cfg.min_seats <;>
    by_cases h2 : cfg.max_seats ≤ l.seats <;>
    by_cases h3 : priceExceedsMax cfg l = true <;>
    by_cases h4 : availabilityFalsy av = true <;>
    by_cases h5 : (cfg.skip_meetup_delivery && hasMeetupDelivery av) = true <;>
    simp [should_skip_listing, specFirstRejection, specRejectionConditions,
      h1, h2, h3, h4, h5]
  · intro hseats _
    simp [should_skip_listing, hseats]

/-- Witness for C5: with minimum 3 seats and a £10 price cap, a 2-seat
£20 listing is rejected with the seat-based reason. -/
theorem shouldSkip_first_matching_reason_witness :
    ((2 : Int) < 3) ∧
    priceExceedsMax ⟨"e", 2, 3, 4, some 10, true⟩ ⟨"t1", 2, "st", "A", "A", "1", 20⟩ = true ∧
    (should_skip_listing ⟨"e", 2, 3, 4, some 10, true⟩ []
        ⟨"t1", 2, "st", "A", "A", "1", 20⟩ none).2.2 = some .tooFewSeats :=
  ⟨by decide, by decide,
    (shouldSkip_first_matching_reason ⟨"e", 2, 3, 4, some 10, true⟩ []
        ⟨"t1", 2, "st", "A", "A", "1", 20⟩ none).2 (by decide) (by decide)⟩

/-- C6. The configured seat maximum is an exclusive bound: a
candidate with seat count equal to `max_seats` is rejected, and a
candidate with seat count `max_seats - 1` meeting the minimum and every
other criterion is not rejected. -/
theorem maxSeats_exclusive_bound (cfg : TwicketConfig) (ft : FoundTickets)
    (l : TicketListing) (av : Option TicketAvailability) :
    (l.seats = cfg.max_seats → (should_skip_listing cfg ft l av).1 = true) ∧
    (l.seats = cfg.max_seats - 1 → cfg.min_seats ≤ l.seats →
      priceExceedsMax cfg l = false → availabilityFalsy av = false →
      (cfg.skip_meetup_delivery && hasMeetupDelivery av) = false →
      (should_skip_listing cfg ft l av).1 = false) := by
  constructor
  · intro h
    by_cases h1 : l.seats < cfg.min_seats
    · simp [should_skip_listing, h1]
    · have h2 : cfg.max_seats ≤ l.seats := le_of_eq h.symm
      simp [should_skip_listing, h1, h2]
  · intro h hmin hp hav hm
    have h1 : ¬ l.seats < cfg.min_seats := not_lt.mpr hmin
    have h2 : ¬ cfg.max_seats ≤ l.seats := by omega
    simp [should_skip_listing, h1, h2, hp, hav, hm]

/-- Witness for C6 with `max_seats = 4`: a 4-seat listing is rejected
and a 3-seat listing meeting every other criterion is accepted. -/
theorem maxSeats_exclusive_bound_witness :
    ((4 : Int) = (4 : Int)) ∧
    (should_skip_listing ⟨"e", 2, 1, 4, none, true⟩ []
        ⟨"t1", 4, "st", "A", "A", "1", 20⟩
        (some ⟨true, some ⟨"b1"⟩, []⟩)).1 = true ∧
    ((3 : Int) = (4 : Int) - 1) ∧
    (should_skip_listing ⟨"e", 2, 1, 4, none, true⟩ []
        ⟨"t2", 3, "st", "A", "A", "1", 20⟩
        (some ⟨true, some ⟨"b1"⟩, []⟩)).1 = false :=
  ⟨rfl,
    (maxSeats_exclusive_bound ⟨"e", 2, 1, 4, none, true⟩ []
        ⟨"t1", 4, "st", "A", "A", "1", 20⟩
        (some ⟨true, some ⟨"b1"⟩, []⟩)).1 rfl,
    by decide,
    (maxSeats_exclusive_bound ⟨"e", 2, 1, 4, none, true⟩ []
        ⟨"t2", 3, "st", "A", "A", "1", 20⟩
        (some ⟨true, some ⟨"b1"⟩, []⟩)).2 (by decide) (by decide)
        (by decide) (by decide) (by decide)⟩

/-! ### Sorting by section (`utils/helpers.py`, `core/bot.py` line 364)

Python's `sorted`/`list.sort` with `key=lambda x: x.section` is a stable
ascending sort on the section string.  A stable ascending sort has a
unique result, so it is embedded as a stable insertion sort on a
`String`-valued key. -/

/-- Stable insertion of `x` into `l`: `x` goes in front of the first
element whose key is not smaller, so an element inserted from the left
stays before elements with an equal key. -/
def insertBySec {α : Type} (sec : α → String) (x : α) : List α → List α
  | [] => [x]
  | y :: ys => if sec x ≤ sec y then x :: y :: ys else y :: insertBySec sec x ys

/-- Stable ascending sort by a `String` key — the behaviour of Python
`sorted(listings, key=…)` / `options.sort(key=…)`. -/
def sortBySec {α : Type} (sec : α → String) : List α → List α
  | [] => []
  | x :: xs => insertBySec sec x (sortBySec sec xs)

/-- `sort_listings_by_section` (`utils/helpers.py`, lines 7–9); the same
ordering is applied in `run_monitoring_loop` by
`options.sort(key=lambda x: x.section)`. -/
def sort_listings_by_section (listings : List TicketListing) : List TicketListing :=
  sortBySec (fun l => l.sec) listings

theorem mem_insertBySec {α : Type} (sec : α → String) (x z : α) (l : List α) :
    z ∈ insertBySec sec x l ↔ z = x ∨ z ∈ l := by
  induction l with
  | nil => simp [insertBySec]
  | cons y ys ih =>
    simp only [insertBySec]
    by_cases hxy : sec x ≤ sec y
    · rw [if_pos hxy]
      simp
    · rw [if_neg hxy]
      simp only [List.mem_cons, ih]
      tauto

theorem insertBySec_pairwise {α : Type} (sec : α → String) (x : α)
    (l : List α) (h : List.Pairwise (fun a b => sec a ≤ sec b) l) :
    List.Pairwise (fun a b => sec a ≤ sec b) (insertBySec sec x l) := by
  induction l with
  | nil => simp [insertBySec]
  | cons y ys ih =>
    simp only [insertBySec]
    by_cases hxy : sec x ≤ sec y
    · rw [if_pos hxy]
      refine List.Pairwise.cons ?_ h
      intro z hz
      rcases List.mem_cons.mp hz with rfl | hz
      · exact hxy
      · exact le_trans hxy (List.rel_of_pairwise_cons h hz)
    · rw [if_neg hxy]
      refine List.Pairwise.cons ?_ (ih h.of_cons)
      intro z hz
      rcases (mem_insertBySec sec x z ys).mp hz with rfl | hmem
      · exact le_of_not_le hxy
      · exact List.rel_of_pairwise_cons h hmem

theorem sortBySec_pairwise {α : Type} (sec : α → String) (l : List α) :
    List.Pairwise (fun a b => sec a ≤ sec b) (sortBySec sec l) := by
  induction l with
  | nil => simp [sortBySec]
  | cons x xs ih => exact insertBySec_pairwise sec x _ ih

theorem filter_insertBySec {α : Type} (sec : α → String) (x : α)
    (l : List α) (s : String) :
    (insertBySec sec x l).filter (fun a => decide (sec a = s)) =
      if sec x = s then x :: l.filter (fun a => decide (sec a = s))
      else l.filter (fun a => decide (sec a = s)) := by
  induction l with
  | nil => by_cases hx : sec x = s <;> simp [insertBySec, hx]
  | cons y ys ih =>
    simp only [insertBySec]
    by_cases hxy : sec x ≤ sec y
    · rw [if_pos hxy]
      by_cases hx : sec x = s <;> simp [hx]
    · rw [if_neg hxy]
      by_cases hy : sec y = s
      · have hx : sec x ≠ s := fun hxs => hxy (le_of_eq (hy ▸ hxs))
        simp [hy, hx, ih]
      · by_cases hx : sec x = s <;> simp [hy, hx, ih]

theorem filter_sortBySec {α : Type} (sec : α → String) (l : List α) (s : String) :
    (sortBySec sec l).filter (fun a => decide (sec a = s)) =
      l.filter (fun a => decide (sec a = s)) := by
  induction l with
  | nil => rfl
  | cons x xs ih =>
    by_cases hx : sec x = s <;>
      simp [sortBySec, filter_insertBySec, hx, ih]

/-- C7. For every fetched candidate list, the processing order
produced by the section sort is ascending in the section string and the
sort is stable (candidates with equal sections keep their original
relative order, stated as: filtering by any fixed section commutes with
the sort); and on the concrete sections `["B", "A", "A2"]` the
processing order is `A, A2, B`. -/
theorem listings_sorted_by_section_stable :
    (∀ l : List TicketListing,
      List.Pairwise (fun a b => a.sec ≤ b.sec) (sort_listings_by_section l) ∧
      ∀ s : String,
        (sort_listings_by_section l).filter (fun a => decide (a.sec = s)) =
          l.filter (fun a => decide (a.sec = s))) ∧
    sort_listings_by_section
        [⟨"i1", 2, "st", "B", "B", "1", 10⟩,
         ⟨"i2", 2, "st", "A", "A", "1", 10⟩,
         ⟨"i3", 2, "st", "A2", "A2", "1", 10⟩] =
      [⟨"i2", 2, "st", "A", "A", "1", 10⟩,
       ⟨"i3", 2, "st", "A2", "A2", "1", 10⟩,
       ⟨"i1", 2, "st", "B", "B", "1", 10⟩] := by
  refine ⟨fun l => ⟨sortBySec_pairwise _ l, fun s => filter_sortBySec _ l s⟩, ?_⟩
  have h1 : ("A" : String) ≤ "A2" := by
    rw [String.le_iff_toList_le]
    decide
  have h2 : ¬ ("B" : String) ≤ "A" := by
    rw [String.le_iff_toList_le]
    decide
  have h3 : ¬ ("B" : String) ≤ "A2" := by
    rw [String.le_iff_toList_le]
    decide
  simp [sort_listings_by_section, sortBySec, insertBySec, h1, h2, h3]

/-! ### Inter-cycle jitter (`core/bot.py`, lines 43–45)

`random.uniform(a, b)` is `a + (b - a) * random()` with `random()`
drawn from `[0, 1)`; it is modelled exactly over `ℚ`, taking the drawn
value as an explicit argument. -/

/-- `TwicketBot._get_random_sleep_time`: `random.uniform(base_time,
base_time * 1.5)`, with `u` the value returned by `random.random()`. -/
def get_random_sleep_time (base_time u : ℚ) : ℚ :=
  base_time + (base_time * 1.5 - base_time) * u

/-- C8, counterexample. The claim "for every non-negative base
delay `b` the sleep duration lies in `[b, b * 1.5)`" fails at the
concrete non-negative base `b = 0` (with draw `u = 0`): the result is
`0`, which is not strictly below `1.5 * 0`. -/
theorem sleep_time_claim_fails_at_zero :
    (0 : ℚ) ≤ 0 ∧ (0 : ℚ) ≤ 0 ∧ (0 : ℚ) < 1 ∧
    ¬(get_random_sleep_time 0 0 < 1.5 * 0) := by
  refine ⟨le_refl 0, le_refl 0, by decide, ?_⟩
  simp [get_random_sleep_time]

/-- C8, amended. For every *positive* base delay `b` and every
draw `u ∈ [0, 1)`, the sleep duration lies in the half-open interval
`[b, b * 1.5)`. -/
theorem sleep_time_in_jitter_range (b u : ℚ) (hb : 0 < b)
    (hu0 : 0 ≤ u) (hu1 : u < 1) :
    b ≤ get_random_sleep_time b u ∧ get_random_sleep_time b u < 1.5 * b := by
  unfold get_random_sleep_time
  constructor
  · nlinarith
  · nlinarith

/-- Witness for the amended C8 at `b = 2`, `u = 0`. -/
theorem sleep_time_in_jitter_range_witness :
    (0 : ℚ) < 2 ∧ (0 : ℚ) ≤ 0 ∧ (0 : ℚ) < 1 ∧
    (2 ≤ get_random_sleep_time 2 0 ∧ get_random_sleep_time 2 0 < 1.5 * 2) :=
  ⟨by decide, le_refl 0, by decide,
    sleep_time_in_jitter_range 2 0 (by decide) (le_refl 0) (by decide)⟩

/-! ### Processing a single listing (`TwicketBot._process_listing`,
`core/bot.py` lines 249–320)

The bot state is the mutable attributes of `TwicketBot` touched by the
monitoring core.  The fallible external calls made on behalf of one
listing — the availability fetch (`page.evaluate`), `webbrowser.open`,
and the Discord notification — are modelled by an explicit environment
`ProcEnv`; a raised Python exception is an explicit outcome. -/

/-- What one `_process_listing` call did.  `raised` means a Python
exception escaped `_process_listing` (only the availability fetch can
raise outside the `try` of lines 303–320); `openedNotifyFailed` means
`webbrowser.open` succeeded but the notification call inside the same
`try` raised, so the status is overwritten with `Failed to Open` while
the listing id stays in `opened_tickets`. -/
inductive ProcOutcome where
  | notReady
  | raised
  | skipped
  | alreadyOpened
  | noBlockInfo
  | opened
  | openedNotifyFailed
  | failedToOpen
deriving DecidableEq, Repr

/-- The open action fired: `webbrowser.open` was called and succeeded
(lines 304–307 ran: id added to `opened_tickets`, counter bumped,
status set to `Opened in Browser`). -/
def ProcOutcome.didOpen : ProcOutcome → Bool
  | .opened => true
  | .openedNotifyFailed => true
  | _ => false

/-- Outcomes of the external calls made while processing one listing. -/
structure ProcEnv where
  availCallRaises : Bool
  rawAvail : Option RawAvailResponse
  openOk : Bool
  notifyOk : Bool
deriving DecidableEq, Repr

/-- The `TwicketBot` attributes driven by the monitoring core.
`hasClient` models `self.api_client and self.auth_token` being set
(line 251). -/
structure BotState where
  hasClient : Bool
  foundTickets : FoundTickets
  openedTickets : List String
  ticketsProcessed : Nat
  ticketsOpened : Nat
deriving DecidableEq, Repr

/-- The bot state right after a successful `initialize()`: client and
token set, both stores empty, counters zero. -/
def initialBotState : BotState := ⟨true, [], [], 0, 0⟩

/-- `self.opened_tickets.add(listing.id)` — Python set insertion. -/
def addOpened (s : List String) (id : String) : List String :=
  if id ∈ s then s else id :: s

/-- Lines 260–274: insert a fresh entry with status `Checking...`, or
update the existing entry's `id` and status in place.  (The code also
refreshes the timestamp, which is not modelled.) -/
def recordObservation (ft : FoundTickets) (key : String) (l : TicketListing) :
    FoundTickets :=
  match lookupTicket ft key with
  | none => ft ++ [(key, ⟨l.id, l.sec, l.row, l.seats, l.price, .checking⟩)]
  | some _ => updateTicket ft key fun info => { info with id := l.id, status := .checking }

/-- Lines 254–274: bump `tickets_processed` and record the observation
under the 4-part key. -/
def afterObservation (st : BotState) (l : TicketListing) : BotState :=
  { st with
    ticketsProcessed := st.ticketsProcessed + 1,
    foundTickets := recordObservation st.foundTickets (ticketKey l) l }

/-- Lines 299–320: the `try` block around `webbrowser.open` and the
notification. -/
def attemptOpen (st : BotState) (l : TicketListing) (env : ProcEnv) :
    BotState × ProcOutcome :=
  if env.openOk then
    if env.notifyOk then
      ({ st with
          openedTickets := addOpened st.openedTickets l.id,
          ticketsOpened := st.ticketsOpened + 1,
          foundTickets := setTicketStatus st.foundTickets (ticketKey l) .openedInBrowser },
        .opened)
    else
      ({ st with
          openedTickets := addOpened st.openedTickets l.id,
          ticketsOpened := st.ticketsOpened + 1,
          foundTickets :=
            setTicketStatus
              (setTicketStatus st.foundTickets (ticketKey l) .openedInBrowser)
              (ticketKey l) .failedToOpen },
        .openedNotifyFailed)
  else
    ({ st with foundTickets := setTicketStatus st.foundTickets (ticketKey l) .failedToOpen },
      .failedToOpen)

/-- Lines 281–320: everything after the availability fetch returned a
value `av`.  Branch order as in the source: skip filter, dedup check on
`opened_tickets`, block check, open attempt.  When the filter does not
skip and `av` is `none`, the attribute access `ticket_availability.block`
would raise `AttributeError`, modelled as `raised` (this branch is in
fact unreachable because the filter skips falsy availabilities). -/
def processAfterAvail (cfg : TwicketConfig) (st : BotState) (l : TicketListing)
    (env : ProcEnv) (av : Option TicketAvailability) : BotState × ProcOutcome :=
  if (should_skip_listing cfg st.foundTickets l av).1 then
    ({ st with
        foundTickets :=
          setTicketStatus (should_skip_listing cfg st.foundTickets l av).2.1
            (ticketKey l) .skipped },
      .skipped)
  else if l.id ∈ st.openedTickets then
    ({ st with foundTickets := setTicketStatus st.foundTickets (ticketKey l) .alreadyOpened },
      .alreadyOpened)
  else
    match av with
    | none => (st, .raised)
    | some a =>
      match a.block with
      | none =>
        ({ st with foundTickets := setTicketStatus st.foundTickets (ticketKey l) .noBlockInfo },
          .noBlockInfo)
      | some _ => attemptOpen st l env

/-- `TwicketBot._process_listing` (`core/bot.py`, lines 249–320). -/
def process_listing (cfg : TwicketConfig) (st : BotState) (l : TicketListing)
    (env : ProcEnv) : BotState × ProcOutcome :=
  if st.hasClient = false then (st, .notReady)
  else if env.availCallRaises then (afterObservation st l, .raised)
  else
    match get_ticket_availability env.rawAvail with
    | .error _ => (afterObservation st l, .raised)
    | .ok av => processAfterAvail cfg (afterObservation st l) l env av

/-- The processing of one listing got past the filter to the
`opened_tickets` dedup check (line 286): client ready, availability
fetch returned without raising, and the filter did not skip. -/
def reachesDedupCheck (cfg : TwicketConfig) (st : BotState) (l : TicketListing)
    (env : ProcEnv) : Bool :=
  st.hasClient && !env.availCallRaises &&
    (match get_ticket_availability env.rawAvail with
     | .error _ => false
     | .ok av =>
       !(should_skip_listing cfg
           (recordObservation st.foundTickets (ticketKey l) l) l av).1)

/-! ### Cycles and the monitoring loop
(`TwicketBot.run_monitoring_loop`, `core/bot.py` lines 354–378) -/

/-- The inner `for listing in options:` loop (lines 366–370): listings
are processed in order; an exception raised by `_process_listing`
propagates out of the `for` loop (there is no per-listing handler), so
the remaining listings are not reached.  The `Bool` records whether an
exception escaped. -/
def process_all (cfg : TwicketConfig) :
    BotState → List (TicketListing × ProcEnv) → BotState × Bool
  | st, [] => (st, false)
  | st, (l, env) :: rest =>
    let r := process_listing cfg st l env
    if r.2 = .raised then (r.1, true) else process_all cfg r.1 rest

/-- External inputs of one cycle: whether `check_event_availability`
raised, and otherwise the fetched listings (`none` models a `None`
return), each paired with the environment of its own processing. -/
structure CycleEnv where
  fetchRaises : Bool
  fetched : Option (List (TicketListing × ProcEnv))
deriving DecidableEq, Repr

/-- One iteration of the `while True:` body (lines 355–376): fetch,
sort by section, process in order; the cycle-level
`except Exception` (line 375) absorbs any exception, keeping whatever
state mutations already happened. -/
def run_cycle (cfg : TwicketConfig) (st : BotState) (c : CycleEnv) : BotState :=
  if c.fetchRaises then st
  else
    match c.fetched with
    | none => st
    | some opts =>
      if opts.isEmpty then st
      else (process_all cfg st (sortBySec (fun p => p.1.sec) opts)).1

/-- The monitoring loop over a finite prefix of cycles. -/
def run_monitoring_loop (cfg : TwicketConfig) : BotState → List CycleEnv → BotState
  | st, [] => st
  | st, c :: cs => run_monitoring_loop cfg (run_cycle cfg st c) cs

/-- A flattened trace of single-listing processing steps (spanning any
number of cycles and repeats). -/
def runTrace (cfg : TwicketConfig) :
    BotState → List (TicketListing × ProcEnv) → BotState
  | st, [] => st
  | st, (l, env) :: rest => runTrace cfg (process_listing cfg st l env).1 rest

/-- The dedup identity of spec §3: section, row, seat count, listing
id. -/
structure TicketIdentity where
  sec : String
  row : String
  seats : Int
  id : String
deriving DecidableEq, Repr

def identityOf (l : TicketListing) : TicketIdentity :=
  ⟨l.sec, l.row, l.seats, l.id⟩

/-- Number of steps of a trace that fire the open action for the given
identity. -/
def countOpensFor (cfg : TwicketConfig) :
    BotState → List (TicketListing × ProcEnv) → TicketIdentity → Nat
  | _, [], _ => 0
  | st, (l, env) :: rest, ident =>
    (if identityOf l = ident ∧ (process_listing cfg st l env).2.didOpen then 1 else 0)
      + countOpensFor cfg (process_listing cfg st l env).1 rest ident

/-! Structural lemmas about one processing step. -/

theorem mem_addOpened (s : List String) (i x : String) :
    x ∈ addOpened s i ↔ x = i ∨ x ∈ s := by
  unfold addOpened
  split
  · rename_i h
    constructor
    · exact fun hx => Or.inr hx
    · rintro (rfl | hx)
      · exact h
      · exact hx
  · simp [List.mem_cons]

theorem attemptOpen_opened (st : BotState) (l : TicketListing) (env : ProcEnv) :
    (attemptOpen st l env).1.openedTickets =
      if env.openOk then addOpened st.openedTickets l.id else st.openedTickets := by
  unfold attemptOpen
  split_ifs <;> rfl

theorem attemptOpen_ticketsOpened (st : BotState) (l : TicketListing) (env : ProcEnv) :
    (attemptOpen st l env).1.ticketsOpened =
      if env.openOk then st.ticketsOpened + 1 else st.ticketsOpened := by
  unfold attemptOpen
  split_ifs <;> rfl

theorem attemptOpen_didOpen (st : BotState) (l : TicketListing) (env : ProcEnv) :
    (attemptOpen st l env).2.didOpen = env.openOk := by
  unfold attemptOpen
  by_cases h1 : env.openOk = true
  · rw [if_pos h1]
    by_cases h2 : env.notifyOk = true
    · rw [if_pos h2]
      simp [ProcOutcome.didOpen, h1]
    · rw [if_neg h2]
      simp [ProcOutcome.didOpen, h1]
  · rw [if_neg h1]
    have h1' : env.openOk = false := Bool.eq_false_iff.mpr h1
    simp [ProcOutcome.didOpen, h1']

theorem processAfterAvail_opened_mono (cfg : TwicketConfig) (st : BotState)
    (l : TicketListing) (env : ProcEnv) (av : Option TicketAvailability)
    (x : String) (h : x ∈ st.openedTickets) :
    x ∈ (processAfterAvail cfg st l env av).1.openedTickets := by
  unfold processAfterAvail
  split_ifs with h1 h2
  · exact h
  · exact h
  · split
    · exact h
    · split
      · exact h
      · rw [attemptOpen_opened]
        split_ifs
        · rw [mem_addOpened]
          exact Or.inr h
        · exact h

theorem processAfterAvail_open_adds (cfg : TwicketConfig) (st : BotState)
    (l : TicketListing) (env : ProcEnv) (av : Option TicketAvailability)
    (h : (processAfterAvail cfg st l env av).2.didOpen = true) :
    l.id ∉ st.openedTickets ∧
    (processAfterAvail cfg st l env av).1.openedTickets =
      addOpened st.openedTickets l.id := by
  revert h
  unfold processAfterAvail
  split_ifs with h1 h2
  · intro h
    simp [ProcOutcome.didOpen] at h
  · intro h
    simp [ProcOutcome.didOpen] at h
  · split
    · intro h
      simp [ProcOutcome.didOpen] at h
    · split
      · intro h
        simp [ProcOutcome.didOpen] at h
      · intro h
        rw [attemptOpen_didOpen] at h
        rw [attemptOpen_opened, if_pos h]
        exact ⟨h2, rfl⟩

theorem processAfterAvail_of_opened (cfg : TwicketConfig) (st : BotState)
    (l : TicketListing) (env : ProcEnv) (av : Option TicketAvailability)
    (h : l.id ∈ st.openedTickets) :
    (processAfterAvail cfg st l env av).2.didOpen = false ∧
    (processAfterAvail cfg st l env av).1.openedTickets = st.openedTickets ∧
    (processAfterAvail cfg st l env av).1.ticketsOpened = st.ticketsOpened ∧
    ((should_skip_listing cfg st.foundTickets l av).1 = false →
      (processAfterAvail cfg st l env av).2 = .alreadyOpened) := by
  unfold processAfterAvail
  split_ifs with h1
  · refine ⟨rfl, rfl, rfl, fun hc => ?_⟩
    rw [hc] at h1
    cases h1
  · exact ⟨rfl, rfl, rfl, fun _ => rfl⟩

theorem process_listing_opened_mono (cfg : TwicketConfig) (st : BotState)
    (l : TicketListing) (env : ProcEnv) (x : String) (h : x ∈ st.openedTickets) :
    x ∈ (process_listing cfg st l env).1.openedTickets := by
  unfold process_listing
  split_ifs with h1 h2
  · exact h
  · exact h
  · split
    · exact h
    · exact processAfterAvail_opened_mono cfg (afterObservation st l) l env _ x h

theorem process_listing_open_adds (cfg : TwicketConfig) (st : BotState)
    (l : TicketListing) (env : ProcEnv)
    (h : (process_listing cfg st l env).2.didOpen = true) :
    l.id ∉ st.openedTickets ∧
    (process_listing cfg st l env).1.openedTickets =
      addOpened st.openedTickets l.id := by
  revert h
  unfold process_listing
  split_ifs with h1 h2
  · intro h
    simp [ProcOutcome.didOpen] at h
  · intro h
    simp [ProcOutcome.didOpen] at h
  · split
    · intro h
      simp [ProcOutcome.didOpen] at h
    · intro h
      exact processAfterAvail_open_adds cfg (afterObservation st l) l env _ h

theorem process_listing_of_opened (cfg : TwicketConfig) (st : BotState)
    (l : TicketListing) (env : ProcEnv) (h : l.id ∈ st.openedTickets) :
    (process_listing cfg st l env).2.didOpen = false ∧
    (process_listing cfg st l env).1.openedTickets = st.openedTickets ∧
    (process_listing cfg st l env).1.ticketsOpened = st.ticketsOpened ∧
    (reachesDedupCheck cfg st l env = true →
      (process_listing cfg st l env).2 = .alreadyOpened) := by
  unfold process_listing
  split_ifs with h1 h2
  · refine ⟨rfl, rfl, rfl, fun hr => ?_⟩
    unfold reachesDedupCheck at hr
    rw [h1] at hr
    simp at hr
  · refine ⟨rfl, rfl, rfl, fun hr => ?_⟩
    unfold reachesDedupCheck at hr
    rw [h2] at hr
    simp at hr
  · split
    · rename_i e heq
      refine ⟨rfl, rfl, rfl, fun hr => ?_⟩
      unfold reachesDedupCheck at hr
      rw [heq] at hr
      simp at hr
    · rename_i av heq
      have hres := processAfterAvail_of_opened cfg (afterObservation st l) l env av h
      refine ⟨hres.1, hres.2.1, hres.2.2.1, fun hr => ?_⟩
      refine hres.2.2.2 ?_
      unfold reachesDedupCheck at hr
      rw [heq] at hr
      simp only [Bool.and_eq_true, Bool.not_eq_true'] at hr
      exact hr.2

/-! Trace-level lemmas. -/

theorem runTrace_opened_mono (cfg : TwicketConfig)
    (trace : List (TicketListing × ProcEnv)) :
    ∀ (st : BotState) (x : String), x ∈ st.openedTickets →
      x ∈ (runTrace cfg st trace).openedTickets := by
  induction trace with
  | nil => exact fun st x h => h
  | cons step rest ih =>
    intro st x h
    obtain ⟨l, env⟩ := step
    exact ih _ x (process_listing_opened_mono cfg st l env x h)

theorem countOpensFor_eq_zero_of_mem (cfg : TwicketConfig)
    (trace : List (TicketListing × ProcEnv)) :
    ∀ (st : BotState) (ident : TicketIdentity), ident.id ∈ st.openedTickets →
      countOpensFor cfg st trace ident = 0 := by
  induction trace with
  | nil => exact fun st ident _ => rfl
  | cons step rest ih =>
    intro st ident h
    obtain ⟨l, env⟩ := step
    have hrest : countOpensFor cfg (process_listing cfg st l env).1 rest ident = 0 :=
      ih _ ident (process_listing_opened_mono cfg st l env ident.id h)
    by_cases hid : identityOf l = ident
    · have hlid : l.id = ident.id := by
        rw [← hid]
        rfl
      have hdo : (process_listing cfg st l env).2.didOpen = false :=
        (process_listing_of_opened cfg st l env (hlid ▸ h)).1
      simp [countOpensFor, hdo, hrest]
    · simp [countOpensFor, hid, hrest]

theorem countOpensFor_le_one (cfg : TwicketConfig)
    (trace : List (TicketListing × ProcEnv)) :
    ∀ (st : BotState) (ident : TicketIdentity),
      countOpensFor cfg st trace ident ≤ 1 := by
  induction trace with
  | nil =>
    intro st ident
    simp [countOpensFor]
  | cons step rest ih =>
    intro st ident
    obtain ⟨l, env⟩ := step
    by_cases hopen : identityOf l = ident ∧ (process_listing cfg st l env).2.didOpen = true
    · obtain ⟨hid, hdo⟩ := hopen
      have hadds := process_listing_open_adds cfg st l env hdo
      have hmem : ident.id ∈ (process_listing cfg st l env).1.openedTickets := by
        rw [hadds.2, mem_addOpened]
        left
        rw [← hid]
        rfl
      have hrest := countOpensFor_eq_zero_of_mem cfg rest _ ident hmem
      simp [countOpensFor, hid, hdo, hrest]
    · have h0 : ¬(identityOf l = ident ∧
          ((process_listing cfg st l env).2.didOpen = true)) := hopen
      simp only [countOpensFor, if_neg h0, Nat.zero_add]
      exact ih _ ident

/-! Ledger (dict) lookup lemmas. -/

theorem lookupTicket_updateTicket (ft : FoundTickets) (tk k : String)
    (f : TicketInfo → TicketInfo) :
    lookupTicket (updateTicket ft tk f) k =
      if tk = k then (lookupTicket ft k).map f else lookupTicket ft k := by
  induction ft with
  | nil =>
    simp [updateTicket, lookupTicket]
  | cons p rest ih =>
    obtain ⟨pk, pv⟩ := p
    simp only [updateTicket]
    by_cases h1 : pk = tk
    · rw [if_pos h1]
      by_cases h2 : pk = k
      · have htk : tk = k := h1.symm.trans h2
        rw [if_pos htk]
        simp [lookupTicket, h2]
      · have htk : ¬tk = k := fun hh => h2 (h1.trans hh)
        rw [if_neg htk]
        simp [lookupTicket, h2]
    · rw [if_neg h1]
      by_cases h2 : pk = k
      · have htk : ¬tk = k := fun hh => h1 (h2.trans hh.symm)
        rw [if_neg htk]
        simp [lookupTicket, h2]
      · simp [lookupTicket, h2, ih]

theorem lookupTicket_setTicketStatus (ft : FoundTickets) (tk k : String) (s : Status) :
    lookupTicket (setTicketStatus ft tk s) k =
      if tk = k then (lookupTicket ft k).map (fun i => { i with status := s })
      else lookupTicket ft k :=
  lookupTicket_updateTicket ft tk k _

theorem lookupTicket_append_single (ft : FoundTickets) (k : String) (v : TicketInfo)
    (h : lookupTicket ft k = none) :
    lookupTicket (ft ++ [(k, v)]) k = some v := by
  induction ft with
  | nil => simp [lookupTicket]
  | cons p rest ih =>
    obtain ⟨pk, pv⟩ := p
    by_cases h1 : pk = k
    · simp [lookupTicket, h1] at h
    · simp only [lookupTicket, if_neg h1] at h
      simpa [lookupTicket, h1] using ih h

theorem lookupTicket_recordObservation (ft : FoundTickets) (k : String)
    (l : TicketListing) :
    ∃ info : TicketInfo,
      lookupTicket (recordObservation ft k l) k = some info ∧
      info.status = .checking := by
  unfold recordObservation
  match h : lookupTicket ft k with
  | none =>
    exact ⟨_, lookupTicket_append_single ft k _ h, rfl⟩
  | some i =>
    refine ⟨{ i with id := l.id, status := .checking }, ?_, rfl⟩
    rw [lookupTicket_updateTicket, if_pos rfl, h]
    rfl

theorem should_skip_listing_foundTickets (cfg : TwicketConfig) (ft : FoundTickets)
    (l : TicketListing) (av : Option TicketAvailability) :
    (should_skip_listing cfg ft l av).2.1 = ft ∨
    (should_skip_listing cfg ft l av).2.1 =
      setTicketStatus ft (shortTicketKey l) .noLongerAvailable := by
  unfold should_skip_listing
  split_ifs <;> simp

theorem should_skip_of_unavailable (cfg : TwicketConfig) (ft : FoundTickets)
    (l : TicketListing) (av : Option TicketAvailability)
    (h : availabilityFalsy av = true) :
    (should_skip_listing cfg ft l av).1 = true := by
  unfold should_skip_listing
  split_ifs <;> rfl

/-- C1. For every listing identity, across any number of cycles and
repeated observations (any flattened trace of processing steps), the
open action fires at most once; and every later observation of an
identity whose listing id is already in the opened set that reaches the
dedup check yields outcome `Already Opened` with no second action (the
opened set and the opened counter are unchanged). -/
theorem open_action_at_most_once (cfg : TwicketConfig) (st : BotState)
    (trace : List (TicketListing × ProcEnv)) (ident : TicketIdentity) :
    countOpensFor cfg st trace ident ≤ 1 ∧
    (∀ (pre : List (TicketListing × ProcEnv)) (l : TicketListing) (env : ProcEnv)
        (post : List (TicketListing × ProcEnv)),
      trace = pre ++ (l, env) :: post →
      l.id ∈ (runTrace cfg st pre).openedTickets →
      reachesDedupCheck cfg (runTrace cfg st pre) l env = true →
      (process_listing cfg (runTrace cfg st pre) l env).2 = .alreadyOpened ∧
      (process_listing cfg (runTrace cfg st pre) l env).1.openedTickets =
        (runTrace cfg st pre).openedTickets ∧
      (process_listing cfg (runTrace cfg st pre) l env).1.ticketsOpened =
        (runTrace cfg st pre).ticketsOpened) := by
  refine ⟨countOpensFor_le_one cfg trace st ident, ?_⟩
  intro pre l env post _ hmem hreach
  have h := process_listing_of_opened cfg (runTrace cfg st pre) l env hmem
  exact ⟨h.2.2.2 hreach, h.2.1, h.2.2.1⟩

/-- Witness for C1: the same listing observed twice from the initial
state; after the first (opening) step its id is in the opened set, the
second observation reaches the dedup check and yields
`Already Opened`. -/
theorem open_action_at_most_once_witness :
    countOpensFor ⟨"e", 2, 1, 4, none, true⟩ initialBotState
        [(⟨"t1", 2, "st", "A", "A", "1", 50⟩,
          ⟨false, some ⟨some true, some ⟨some "b1"⟩, some []⟩, true, true⟩),
         (⟨"t1", 2, "st", "A", "A", "1", 50⟩,
          ⟨false, some ⟨some true, some ⟨some "b1"⟩, some []⟩, true, true⟩)]
        ⟨"A", "1", 2, "t1"⟩ ≤ 1 ∧
    ("t1" : String) ∈
      (runTrace ⟨"e", 2, 1, 4, none, true⟩ initialBotState
        [(⟨"t1", 2, "st", "A", "A", "1", 50⟩,
          ⟨false, some ⟨some true, some ⟨some "b1"⟩, some []⟩, true, true⟩)]).openedTickets ∧
    reachesDedupCheck ⟨"e", 2, 1, 4, none, true⟩
      (runTrace ⟨"e", 2, 1, 4, none, true⟩ initialBotState
        [(⟨"t1", 2, "st", "A", "A", "1", 50⟩,
          ⟨false, some ⟨some true, some ⟨some "b1"⟩, some []⟩, true, true⟩)])
      ⟨"t1", 2, "st", "A", "A", "1", 50⟩
      ⟨false, some ⟨some true, some ⟨some "b1"⟩, some []⟩, true, true⟩ = true ∧
    (process_listing ⟨"e", 2, 1, 4, none, true⟩
      (runTrace ⟨"e", 2, 1, 4, none, true⟩ initialBotState
        [(⟨"t1", 2, "st", "A", "A", "1", 50⟩,
          ⟨false, some ⟨some true, some ⟨some "b1"⟩, some []⟩, true, true⟩)])
      ⟨"t1", 2, "st", "A", "A", "1", 50⟩
      ⟨false, some ⟨some true, some ⟨some "b1"⟩, some []⟩, true, true⟩).2 =
      .alreadyOpened := by
  have hmem : ("t1" : String) ∈
      (runTrace ⟨"e", 2, 1, 4, none, true⟩ initialBotState
        [(⟨"t1", 2, "st", "A", "A", "1", 50⟩,
          ⟨false, some ⟨some true, some ⟨some "b1"⟩, some []⟩, true, true⟩)]).openedTickets := by
    decide
  have hreach : reachesDedupCheck ⟨"e", 2, 1, 4, none, true⟩
      (runTrace ⟨"e", 2, 1, 4, none, true⟩ initialBotState
        [(⟨"t1", 2, "st", "A", "A", "1", 50⟩,
          ⟨false, some ⟨some true, some ⟨some "b1"⟩, some []⟩, true, true⟩)])
      ⟨"t1", 2, "st", "A", "A", "1", 50⟩
      ⟨false, some ⟨some true, some ⟨some "b1"⟩, some []⟩, true, true⟩ = true := by
    decide
  have h := open_action_at_most_once ⟨"e", 2, 1, 4, none, true⟩ initialBotState
    [(⟨"t1", 2, "st", "A", "A", "1", 50⟩,
      ⟨false, some ⟨some true, some ⟨some "b1"⟩, some []⟩, true, true⟩),
     (⟨"t1", 2, "st", "A", "A", "1", 50⟩,
      ⟨false, some ⟨some true, some ⟨some "b1"⟩, some []⟩, true, true⟩)]
    ⟨"A", "1", 2, "t1"⟩
  exact ⟨h.1,  hmem, hreach,
    (h.2 [(⟨"t1", 2, "st", "A", "A", "1", 50⟩,
        ⟨false, some ⟨some true, some ⟨some "b1"⟩, some []⟩, true, true⟩)]
      ⟨"t1", 2, "st", "A", "A", "1", 50⟩
      ⟨false, some ⟨some true, some ⟨some "b1"⟩, some []⟩, true, true⟩ [] rfl hmem hreach).1⟩

/-- C10. The at-most-once guard is keyed by listing id alone: for
two candidates sharing a listing id but differing in section, row or
seat count, once the first has been opened, processing the second
(when it reaches the dedup check) yields `Already Opened` and no second
open action. -/
theorem dedup_guard_keyed_by_id (cfg : TwicketConfig) (st : BotState)
    (l1 l2 : TicketListing) (env1 env2 : ProcEnv)
    (hid : l1.id = l2.id)
    (hdiff : l1.sec ≠ l2.sec ∨ l1.row ≠ l2.row ∨ l1.seats ≠ l2.seats)
    (hopen : (process_listing cfg st l1 env1).2.didOpen = true)
    (hreach : reachesDedupCheck cfg (process_listing cfg st l1 env1).1 l2 env2 = true) :
    (process_listing cfg (process_listing cfg st l1 env1).1 l2 env2).2 =
      .alreadyOpened ∧
    (process_listing cfg (process_listing cfg st l1 env1).1 l2 env2).2.didOpen =
      false ∧
    (process_listing cfg (process_listing cfg st l1 env1).1 l2 env2).1.ticketsOpened =
      (process_listing cfg st l1 env1).1.ticketsOpened := by
  have hadds := process_listing_open_adds cfg st l1 env1 hopen
  have hmem : l2.id ∈ (process_listing cfg st l1 env1).1.openedTickets := by
    rw [hadds.2, mem_addOpened]
    exact Or.inl hid.symm
  have h := process_listing_of_opened cfg (process_listing cfg st l1 env1).1 l2 env2 hmem
  exact ⟨h.2.2.2 hreach, h.1, h.2.2.1⟩

/-- Witness for C10: two candidates with the same id `"t9"` in
different sections; the second observation after the first opened
yields `Already Opened`. -/
theorem dedup_guard_keyed_by_id_witness :
    (⟨"t9", 2, "st", "A", "A", "1", 50⟩ : TicketListing).id =
      (⟨"t9", 3, "st", "B", "B", "7", 60⟩ : TicketListing).id ∧
    (⟨"t9", 2, "st", "A", "A", "1", 50⟩ : TicketListing).sec ≠
      (⟨"t9", 3, "st", "B", "B", "7", 60⟩ : TicketListing).sec ∧
    (process_listing ⟨"e", 2, 1, 4, none, true⟩ initialBotState
      ⟨"t9", 2, "st", "A", "A", "1", 50⟩
      ⟨false, some ⟨some true, some ⟨some "b1"⟩, some []⟩, true, true⟩).2.didOpen = true ∧
    (process_listing ⟨"e", 2, 1, 4, none, true⟩
      (process_listing ⟨"e", 2, 1, 4, none, true⟩ initialBotState
        ⟨"t9", 2, "st", "A", "A", "1", 50⟩
        ⟨false, some ⟨some true, some ⟨some "b1"⟩, some []⟩, true, true⟩).1
      ⟨"t9", 3, "st", "B", "B", "7", 60⟩
      ⟨false, some ⟨some true, some ⟨some "b2"⟩, some []⟩, true, true⟩).2 =
      .alreadyOpened := by
  have hopen : (process_listing ⟨"e", 2, 1, 4, none, true⟩ initialBotState
      ⟨"t9", 2, "st", "A", "A", "1", 50⟩
      ⟨false, some ⟨some true, some ⟨some "b1"⟩, some []⟩, true, true⟩).2.didOpen = true := by
    decide
  have hreach : reachesDedupCheck ⟨"e", 2, 1, 4, none, true⟩
      (process_listing ⟨"e", 2, 1, 4, none, true⟩ initialBotState
        ⟨"t9", 2, "st", "A", "A", "1", 50⟩
        ⟨false, some ⟨some true, some ⟨some "b1"⟩, some []⟩, true, true⟩).1
      ⟨"t9", 3, "st", "B", "B", "7", 60⟩
      ⟨false, some ⟨some true, some ⟨some "b2"⟩, some []⟩, true, true⟩ = true := by
    decide
  exact ⟨rfl, by decide, hopen,
    (dedup_guard_keyed_by_id ⟨"e", 2, 1, 4, none, true⟩ initialBotState
      ⟨"t9", 2, "st", "A", "A", "1", 50⟩ ⟨"t9", 3, "st", "B", "B", "7", 60⟩
      ⟨false, some ⟨some true, some ⟨some "b1"⟩, some []⟩, true, true⟩
      ⟨false, some ⟨some true, some ⟨some "b2"⟩, some []⟩, true, true⟩
      rfl (Or.inl (by decide)) hopen hreach).1⟩

/-- The 4-part ledger key is never equal to the 3-part key (it extends
it by a separator and the listing id). -/
theorem shortTicketKey_ne_ticketKey (l : TicketListing) :
    shortTicketKey l ≠ ticketKey l := by
  intro h
  have hlen : (ticketKey l).length =
      (shortTicketKey l).length + 1 + l.id.length := by
    show ((shortTicketKey l ++ "-") ++ l.id).length = _
    simp [String.length_append]
    rfl
  rw [← h] at hlen
  omega

/-- C3, counterexample. At a concrete candidate meeting the seat
and price criteria whose availability response reports
`available = true` with no block, the recorded outcome is `Skipped`,
not `No Block Info`: the API client normalises the response to
unavailable before the bot sees it. -/
theorem no_block_candidate_counterexample :
    (process_listing ⟨"e", 2, 1, 4, none, true⟩ initialBotState
      ⟨"t3", 2, "st", "A", "A", "5", 40⟩
      ⟨false, some ⟨some true, none, none⟩, true, true⟩).2 = .skipped ∧
    (process_listing ⟨"e", 2, 1, 4, none, true⟩ initialBotState
      ⟨"t3", 2, "st", "A", "A", "5", 40⟩
      ⟨false, some ⟨some true, none, none⟩, true, true⟩).2 ≠ .noBlockInfo ∧
    lookupTicket
      (process_listing ⟨"e", 2, 1, 4, none, true⟩ initialBotState
        ⟨"t3", 2, "st", "A", "A", "5", 40⟩
        ⟨false, some ⟨some true, none, none⟩, true, true⟩).1.foundTickets
      (ticketKey ⟨"t3", 2, "st", "A", "A", "5", 40⟩) =
      some ⟨"t3", "A", "5", 2, 40, .skipped⟩ := by
  decide

/-- C3, amended. A candidate whose raw availability response
reports `available = true` but carries no block is normalised by
`get_ticket_availability` to an unavailable result, so processing it
records outcome `Skipped` (never `No Block Info`), performs no open
action, and does not mark the identity as acted (the opened set and the
opened counter are unchanged), leaving it eligible on a later cycle;
the processing never raises. -/
theorem no_block_candidate_yields_skipped (cfg : TwicketConfig) (st : BotState)
    (l : TicketListing) (env : ProcEnv) (raw : RawAvailResponse)
    (hc : st.hasClient = true)
    (hr : env.availCallRaises = false)
    (hraw : env.rawAvail = some raw)
    (hav : raw.available = some true)
    (hb : raw.block = none) :
    (process_listing cfg st l env).2 = .skipped ∧
    (process_listing cfg st l env).2.didOpen = false ∧
    (process_listing cfg st l env).1.openedTickets = st.openedTickets ∧
    (process_listing cfg st l env).1.ticketsOpened = st.ticketsOpened ∧
    (∃ info : TicketInfo,
      lookupTicket (process_listing cfg st l env).1.foundTickets (ticketKey l) =
        some info ∧
      info.status = .skipped) := by
  have hga : get_ticket_availability env.rawAvail =
      .ok (some (TicketAvailability.mk false none [])) := by
    rw [hraw]
    simp [get_ticket_availability, hb]
  have hpl : process_listing cfg st l env =
      processAfterAvail cfg (afterObservation st l) l env
        (some (TicketAvailability.mk false none [])) := by
    unfold process_listing
    rw [if_neg (by simp [hc]), if_neg (by simp [hr]), hga]
  have hskip : (should_skip_listing cfg (afterObservation st l).foundTickets l
      (some (TicketAvailability.mk false none []))).1 = true :=
    should_skip_of_unavailable cfg _ l _ rfl
  have hpaa : processAfterAvail cfg (afterObservation st l) l env
      (some (TicketAvailability.mk false none [])) =
      ({ afterObservation st l with
          foundTickets :=
            setTicketStatus
              (should_skip_listing cfg (afterObservation st l).foundTickets l
                (some (TicketAvailability.mk false none []))).2.1
              (ticketKey l) .skipped },
        .skipped) := by
    unfold processAfterAvail
    rw [if_pos hskip]
  rw [hpl, hpaa]
  refine ⟨rfl, rfl, rfl, rfl, ?_⟩
  obtain ⟨info0, hl0, _⟩ :=
    lookupTicket_recordObservation st.foundTickets (ticketKey l) l
  have hl0' : lookupTicket (afterObservation st l).foundTickets (ticketKey l) =
      some info0 := hl0
  have hsome : lookupTicket
      (should_skip_listing cfg (afterObservation st l).foundTickets l
        (some (TicketAvailability.mk false none []))).2.1 (ticketKey l) =
      some info0 := by
    rcases should_skip_listing_foundTickets cfg (afterObservation st l).foundTickets l
        (some (TicketAvailability.mk false none [])) with hft | hft
    · rw [hft, hl0']
    · rw [hft, lookupTicket_setTicketStatus,
        if_neg (shortTicketKey_ne_ticketKey l), hl0']
  refine ⟨{ info0 with status := .skipped }, ?_, rfl⟩
  rw [lookupTicket_setTicketStatus, if_pos rfl, hsome]
  rfl

/-- Witness for the amended C3 at a concrete candidate. -/
theorem no_block_candidate_yields_skipped_witness :
    initialBotState.hasClient = true ∧
    ((⟨false, some ⟨some true, none, none⟩, true, true⟩ : ProcEnv).availCallRaises
      = false) ∧
    (process_listing ⟨"e", 2, 1, 4, none, true⟩ initialBotState
      ⟨"t3", 2, "st", "A", "A", "5", 40⟩
      ⟨false, some ⟨some true, none, none⟩, true, true⟩).2 = .skipped ∧
    (process_listing ⟨"e", 2, 1, 4, none, true⟩ initialBotState
      ⟨"t3", 2, "st", "A", "A", "5", 40⟩
      ⟨false, some ⟨some true, none, none⟩, true, true⟩).1.openedTickets =
      initialBotState.openedTickets :=
  ⟨rfl, rfl,
    (no_block_candidate_yields_skipped ⟨"e", 2, 1, 4, none, true⟩ initialBotState
      ⟨"t3", 2, "st", "A", "A", "5", 40⟩
      ⟨false, some ⟨some true, none, none⟩, true, true⟩
      ⟨some true, none, none⟩ rfl rfl rfl rfl rfl).1,
    (no_block_candidate_yields_skipped ⟨"e", 2, 1, 4, none, true⟩ initialBotState
      ⟨"t3", 2, "st", "A", "A", "5", 40⟩
      ⟨false, some ⟨some true, none, none⟩, true, true⟩
      ⟨some true, none, none⟩ rfl rfl rfl rfl rfl).2.2.1⟩

/-- C4, the code evaluated at the failing input. For a candidate
meeting the seat and price criteria whose availability re-check reports
unavailable, the ledger entry (keyed by the 4-part key including the
listing id) ends the cycle with status `Skipped`; the
`No Longer Available` write targets the 3-part key, which is absent
from the ledger, so no entry anywhere shows `No Longer Available` —
the final ledger is exactly the one `Skipped` entry. -/
theorem unavailable_candidate_records_skipped :
    (process_listing ⟨"e", 2, 1, 4, none, true⟩ initialBotState
      ⟨"t4", 2, "st", "A", "A", "5", 40⟩
      ⟨false, some ⟨some false, none, none⟩, true, true⟩).2 = .skipped ∧
    (process_listing ⟨"e", 2, 1, 4, none, true⟩ initialBotState
      ⟨"t4", 2, "st", "A", "A", "5", 40⟩
      ⟨false, some ⟨some false, none, none⟩, true, true⟩).1.foundTickets =
      [(ticketKey ⟨"t4", 2, "st", "A", "A", "5", 40⟩,
        ⟨"t4", "A", "5", 2, 40, .skipped⟩)] ∧
    lookupTicket
      (process_listing ⟨"e", 2, 1, 4, none, true⟩ initialBotState
        ⟨"t4", 2, "st", "A", "A", "5", 40⟩
        ⟨false, some ⟨some false, none, none⟩, true, true⟩).1.foundTickets
      (shortTicketKey ⟨"t4", 2, "st", "A", "A", "5", 40⟩) = none := by
  decide

/-- C2, counterexample. In a cycle with two candidates where the
first one's availability re-check raises, the second candidate — whose
environment would have opened it — is never processed: the cycle ends
with one processed ticket, no ledger entry for the second candidate,
and nothing opened.  This refutes the claim that siblings in the same
cycle are still processed. -/
theorem cycle_exception_skips_siblings :
    (run_cycle ⟨"e", 2, 1, 4, none, true⟩ initialBotState
      ⟨false, some
        [(⟨"ta", 2, "st", "A", "A", "1", 30⟩, ⟨true, none, true, true⟩),
         (⟨"tb", 2, "st", "A", "A", "2", 30⟩,
          ⟨false, some ⟨some true, some ⟨some "bb"⟩, some []⟩, true, true⟩)]⟩).ticketsProcessed
      = 1 ∧
    lookupTicket
      (run_cycle ⟨"e", 2, 1, 4, none, true⟩ initialBotState
        ⟨false, some
          [(⟨"ta", 2, "st", "A", "A", "1", 30⟩, ⟨true, none, true, true⟩),
           (⟨"tb", 2, "st", "A", "A", "2", 30⟩,
            ⟨false, some ⟨some true, some ⟨some "bb"⟩, some []⟩, true, true⟩)]⟩).foundTickets
      (ticketKey ⟨"tb", 2, "st", "A", "A", "2", 30⟩) = none ∧
    (run_cycle ⟨"e", 2, 1, 4, none, true⟩ initialBotState
      ⟨false, some
        [(⟨"ta", 2, "st", "A", "A", "1", 30⟩, ⟨true, none, true, true⟩),
         (⟨"tb", 2, "st", "A", "A", "2", 30⟩,
          ⟨false, some ⟨some true, some ⟨some "bb"⟩, some []⟩, true, true⟩)]⟩).ticketsOpened
      = 0 := by
  have hsort : sortBySec (fun p : TicketListing × ProcEnv => p.1.sec)
      [(⟨"ta", 2, "st", "A", "A", "1", 30⟩, ⟨true, none, true, true⟩),
       (⟨"tb", 2, "st", "A", "A", "2", 30⟩,
        ⟨false, some ⟨some true, some ⟨some "bb"⟩, some []⟩, true, true⟩)] =
      [(⟨"ta", 2, "st", "A", "A", "1", 30⟩, ⟨true, none, true, true⟩),
       (⟨"tb", 2, "st", "A", "A", "2", 30⟩,
        ⟨false, some ⟨some true, some ⟨some "bb"⟩, some []⟩, true, true⟩)] := by
    simp [sortBySec, insertBySec]
  have hrc : run_cycle ⟨"e", 2, 1, 4, none, true⟩ initialBotState
      ⟨false, some
        [(⟨"ta", 2, "st", "A", "A", "1", 30⟩, ⟨true, none, true, true⟩),
         (⟨"tb", 2, "st", "A", "A", "2", 30⟩,
          ⟨false, some ⟨some true, some ⟨some "bb"⟩, some []⟩, true, true⟩)]⟩ =
      (process_all ⟨"e", 2, 1, 4, none, true⟩ initialBotState
        (sortBySec (fun p : TicketListing × ProcEnv => p.1.sec)
          [(⟨"ta", 2, "st", "A", "A", "1", 30⟩, ⟨true, none, true, true⟩),
           (⟨"tb", 2, "st", "A", "A", "2", 30⟩,
            ⟨false, some ⟨some true, some ⟨some "bb"⟩, some []⟩, true, true⟩)])).1 :=
    rfl
  rw [hrc, hsort]
  decide

/-- A raise while processing one listing aborts the rest of the inner
loop: the result does not depend on the listings after the raising
one. -/
theorem process_all_append_raise (cfg : TwicketConfig)
    (pre : List (TicketListing × ProcEnv)) :
    ∀ (st : BotState) (l : TicketListing) (env : ProcEnv)
      (post : List (TicketListing × ProcEnv)),
    (process_all cfg st pre).2 = false →
    (process_listing cfg (process_all cfg st pre).1 l env).2 = .raised →
    process_all cfg st (pre ++ (l, env) :: post) =
      ((process_listing cfg (process_all cfg st pre).1 l env).1, true) := by
  induction pre with
  | nil =>
    intro st l env post _ hraise
    have hraise' : (process_listing cfg st l env).2 = .raised := hraise
    simp only [List.nil_append, process_all]
    rw [if_pos hraise']
  | cons p rest ih =>
    intro st l env post hpre hraise
    obtain ⟨pl, penv⟩ := p
    by_cases hp : (process_listing cfg st pl penv).2 = .raised
    · exfalso
      have : (process_all cfg st ((pl, penv) :: rest)).2 = true := by
        simp only [process_all]
        rw [if_pos hp]
      rw [this] at hpre
      cases hpre
    · have hfold : process_all cfg st ((pl, penv) :: rest) =
          process_all cfg (process_listing cfg st pl penv).1 rest := by
        simp only [process_all]
        rw [if_neg hp]
      rw [hfold] at hpre hraise
      have hstep : process_all cfg st ((pl, penv) :: (rest ++ (l, env) :: post)) =
          process_all cfg (process_listing cfg st pl penv).1
            (rest ++ (l, env) :: post) := by
        simp only [process_all]
        rw [if_neg hp]
      rw [List.cons_append, hstep, hfold]
      exact ih _ l env post hpre hraise

/-- C2, amended. If processing one candidate raises (after a
prefix of the sorted cycle list was processed without raising), the
remaining candidates of that cycle are *not* processed — the cycle
result is independent of them — but the exception is absorbed at the
cycle boundary, so the monitoring loop continues with the subsequent
cycles from the state as of the abort. -/
theorem cycle_exception_scoped_to_cycle (cfg : TwicketConfig) (st : BotState)
    (pre : List (TicketListing × ProcEnv)) (l : TicketListing) (env : ProcEnv)
    (post : List (TicketListing × ProcEnv)) (opts : List (TicketListing × ProcEnv))
    (cs : List CycleEnv)
    (hpre : (process_all cfg st pre).2 = false)
    (hraise : (process_listing cfg (process_all cfg st pre).1 l env).2 = .raised)
    (hsort : sortBySec (fun p => p.1.sec) opts = pre ++ (l, env) :: post)
    (hne : opts.isEmpty = false) :
    process_all cfg st (pre ++ (l, env) :: post) =
      ((process_listing cfg (process_all cfg st pre).1 l env).1, true) ∧
    run_monitoring_loop cfg st (CycleEnv.mk false (some opts) :: cs) =
      run_monitoring_loop cfg
        (process_listing cfg (process_all cfg st pre).1 l env).1 cs := by
  have habort := process_all_append_raise cfg pre st l env post hpre hraise
  refine ⟨habort, ?_⟩
  show run_monitoring_loop cfg
      (run_cycle cfg st (CycleEnv.mk false (some opts))) cs = _
  have hcyc : run_cycle cfg st (CycleEnv.mk false (some opts)) =
      (process_listing cfg (process_all cfg st pre).1 l env).1 := by
    show (if opts.isEmpty = true then st
        else (process_all cfg st (sortBySec (fun p => p.1.sec) opts)).1) = _
    rw [hne]
    simp only [Bool.false_eq_true, if_false]
    rw [hsort, habort]
  rw [hcyc]

/-- Witness for the amended C2: the two-candidate cycle of the
counterexample, followed by one further (empty) cycle. -/
theorem cycle_exception_scoped_to_cycle_witness :
    (process_all ⟨"e", 2, 1, 4, none, true⟩ initialBotState []).2 = false ∧
    (process_listing ⟨"e", 2, 1, 4, none, true⟩
      (process_all ⟨"e", 2, 1, 4, none, true⟩ initialBotState []).1
      ⟨"ta", 2, "st", "A", "A", "1", 30⟩ ⟨true, none, true, true⟩).2 = .raised ∧
    process_all ⟨"e", 2, 1, 4, none, true⟩ initialBotState
      ([] ++ (⟨"ta", 2, "st", "A", "A", "1", 30⟩, ⟨true, none, true, true⟩) ::
        [(⟨"tb", 2, "st", "A", "A", "2", 30⟩,
          ⟨false, some ⟨some true, some ⟨some "bb"⟩, some []⟩, true, true⟩)]) =
      ((process_listing ⟨"e", 2, 1, 4, none, true⟩
          (process_all ⟨"e", 2, 1, 4, none, true⟩ initialBotState []).1
          ⟨"ta", 2, "st", "A", "A", "1", 30⟩ ⟨true, none, true, true⟩).1, true) := by
  have hpre : (process_all ⟨"e", 2, 1, 4, none, true⟩ initialBotState []).2 = false := by
    decide
  have hraise : (process_listing ⟨"e", 2, 1, 4, none, true⟩
      (process_all ⟨"e", 2, 1, 4, none, true⟩ initialBotState []).1
      ⟨"ta", 2, "st", "A", "A", "1", 30⟩ ⟨true, none, true, true⟩).2 = .raised := by
    decide
  have hsort : sortBySec (fun p : TicketListing × ProcEnv => p.1.sec)
      [(⟨"ta", 2, "st", "A", "A", "1", 30⟩, ⟨true, none, true, true⟩),
       (⟨"tb", 2, "st", "A", "A", "2", 30⟩,
        ⟨false, some ⟨some true, some ⟨some "bb"⟩, some []⟩, true, true⟩)] =
      [] ++ (⟨"ta", 2, "st", "A", "A", "1", 30⟩,
        (⟨true, none, true, true⟩ : ProcEnv)) ::
        [(⟨"tb", 2, "st", "A", "A", "2", 30⟩,
          ⟨false, some ⟨some true, some ⟨some "bb"⟩, some []⟩, true, true⟩)] := by
    simp [sortBySec, insertBySec]
  exact ⟨hpre, hraise,
    (cycle_exception_scoped_to_cycle ⟨"e", 2, 1, 4, none, true⟩ initialBotState
      [] ⟨"ta", 2, "st", "A", "A", "1", 30⟩ ⟨true, none, true, true⟩
      [(⟨"tb", 2, "st", "A", "A", "2", 30⟩,
        ⟨false, some ⟨some true, some ⟨some "bb"⟩, some []⟩, true, true⟩)]
      [(⟨"ta", 2, "st", "A", "A", "1", 30⟩, ⟨true, none, true, true⟩),
       (⟨"tb", 2, "st", "A", "A", "2", 30⟩,
        ⟨false, some ⟨some true, some ⟨some "bb"⟩, some []⟩, true, true⟩)]
      [] hpre hraise hsort (by decide)).1⟩

end Twicketer
